import Mathlib

/-!
Shallow embedding of the `organizer` pipeline (Go): the Copier stage
(`internal/copier`), the Analyzer stage (`internal/analyzer`) and the
inference client (`internal/ai/ai_proxy.go`), together with theorems
checking the specification's claims about them.

External effects (filesystem, inference backend, JSON decoding) are
abstracted as explicit oracle parameters; the control flow and the string
formatting are translated from the source.
-/

namespace Organizer

/-! ## Data model

The entity structs `MagazinePage`, `MagazinePages`, `MagazineMetadata` and
`Magazine` are not under `src/internal/abstractions/entities`; their field
shapes are fully determined by their uses in the copier and analyzer code
and by the spec's data model (Page, PageSet, PublicationMetadata,
Publication).  Go's `uint8`/`uint16` fields are modelled as `Nat`.
-/

/-- One scanned page: `entities.MagazinePage { File, Number }`. -/
structure MagazinePage where
  file : String
  number : Nat
  deriving DecidableEq, Repr, Inhabited

/-- One publication's ordered page set: `entities.MagazinePages { Folder, Pages }`. -/
structure MagazinePages where
  folder : String
  pages : List MagazinePage
  deriving DecidableEq, Repr, Inhabited

/-- Publication metadata derived from the cover:
`entities.MagazineMetadata { Title, Number, Month, Year }`. -/
structure MagazineMetadata where
  title : String
  number : Nat
  month : List Nat
  year : Nat
  deriving DecidableEq, Repr, Inhabited

/-- The unit handed to the Copier: `entities.Magazine { Metadata, Pages, Folder }`. -/
structure Magazine where
  metadata : MagazineMetadata
  pages : List MagazinePage
  folder : String
  deriving DecidableEq, Repr, Inhabited

/-- `entities.TableContentEntry { Title, PageNumbers }` (table_content.go). -/
structure TableContentEntry where
  title : String
  pageNumbers : List Nat
  deriving DecidableEq, Repr, Inhabited

/-- `entities.TableContent { Error, Entries }` (table_content.go). -/
structure TableContent where
  error : String
  entries : List TableContentEntry
  deriving DecidableEq, Repr, Inhabited

/-- A decoded table-of-content JSON object, field by field.  `none` models a
key absent from the JSON text: Go's `json.Unmarshal` into an existing
struct leaves a field untouched when its key is absent, so decoding is a
patch applied to the accumulator variable, not a replacement. -/
structure TableContentPatch where
  error : Option String
  entries : Option (List TableContentEntry)
  deriving DecidableEq, Repr, Inhabited

/-- Audit severities (`entities.Audit`). -/
inductive Severity where
  | debug
  | information
  | error
  deriving DecidableEq, Repr, Inhabited

/-- An audit event, timestamp dropped (wall-clock time carries no logic). -/
structure Audit where
  severity : Severity
  text : String
  deriving DecidableEq, Repr, Inhabited

/-! ## String and path helpers (models of `fmt`, `strings`, `path/filepath`) -/

/-- Models Go's `filepath.Join` for the components produced here (non-empty,
free of separators and dot segments): joining with a single `/`. -/
def pathJoin (a b : String) : String := a ++ "/" ++ b

/-- Models `fmt.Sprintf "%02d"`: decimal, left-padded with zeros to width 2. -/
def pad2 (n : Nat) : String :=
  if n < 10 then "0" ++ toString n else toString n

/-- Models `fmt.Sprintf "%03d"`: decimal, left-padded with zeros to width 3. -/
def pad3 (n : Nat) : String :=
  if n < 10 then "00" ++ toString n
  else if n < 100 then "0" ++ toString n
  else toString n

/-- ASCII lower-casing of one character. -/
def asciiLower (c : Char) : Char :=
  if 'A' ≤ c ∧ c ≤ 'Z' then Char.ofNat (c.toNat + 32) else c

/-- Models `strings.ToLower` on the ASCII range (the only range exercised by
file extensions here). -/
def lowerStr (s : String) : String := String.mk (s.data.map asciiLower)

/-- Characters strictly after the last `.` of the list (helper for `goExt`). -/
def afterLastDot : List Char → List Char
  | [] => []
  | '.' :: rest => if rest.contains '.' then afterLastDot rest else rest
  | _ :: rest => afterLastDot rest

/-- Models `filepath.Ext` on a bare file name: the suffix beginning at the
final dot, including the dot; empty when the name has no dot. -/
def goExt (s : String) : String :=
  if s.data.contains '.' then "." ++ String.mk (afterLastDot s.data) else ""

/-! ## Copier (`internal/copier`, src/unnamed/part_001) -/

/-- The fixed French month names of `toNames`. -/
def frenchMonths : List String :=
  ["Janvier", "Février", "Mars", "Avril", "Mai", "Juin",
   "Juillet", "Août", "Septembre", "Octobre", "Novembre", "Décembre"]

/-- `toNames(nums []uint8) []string`: keep `1 <= n <= 12`, map through
`frenchMonths`, in input order; out-of-range numbers are dropped. -/
def toNames : List Nat → List String
  | [] => []
  | n :: rest =>
      if 1 ≤ n ∧ n ≤ 12 then frenchMonths[n - 1]! :: toNames rest
      else toNames rest

/-- The copier's folder-name constant (Go: the package-level string constant
with value "test-" prepended to the publication title). -/
def prefixStr : String := "test-"

/-- Outcome of the per-page open/create/copy sequence in `renameFiles`. -/
inductive PageCopyOutcome where
  | ok
  | openFail
  | createFail
  | copyFail
  deriving DecidableEq, Repr, Inhabited

/-- Filesystem oracle for the Copier.  `statMissing p` models
`os.IsNotExist(os.Stat(p))`; `mkdirOk` the success of `os.Mkdir`;
`pageCopy src dst` the combined result of `os.Open(src)`,
`os.Create(dst)`, `io.Copy`. -/
structure CopierEnv where
  statMissing : String → Bool
  mkdirOk : String → Bool
  pageCopy : String → String → PageCopyOutcome

/-- Destination file name of one page in `renameFiles`:
`fmt.Sprintf("%03d%s", page.Number, strings.ToLower(filepath.Ext(page.File)))`. -/
def pageDestName (p : MagazinePage) : String :=
  pad3 p.number ++ lowerStr (goExt p.file)

/-- The page loop of `renameFiles`: for each page in order, open the source,
create the destination, copy; the first failure returns that error and the
remaining pages are not touched.  On success, returns the destination
paths in page order. -/
def copyPages (env : CopierEnv) (dstDir srcFolder : String) :
    List MagazinePage → Except String (List String)
  | [] => .ok []
  | p :: rest =>
      let src := pathJoin srcFolder p.file
      let dst := pathJoin dstDir (pageDestName p)
      match env.pageCopy src dst with
      | .openFail => .error ("unable to open source file " ++ src)
      | .createFail => .error ("unable to create destination file " ++ dst)
      | .copyFail => .error ("unable to copy the file from " ++ src ++ " to " ++ dst)
      | .ok => (copyPages env dstDir srcFolder rest).map (fun l => dst :: l)

/-- Issue-level subfolder name of `renameFiles`:
`fmt.Sprintf("Numéro %02d | %s", number, months-joined-with-" - " ++ " " ++ year)`. -/
def issueFolderName (m : MagazineMetadata) : String :=
  "Numéro " ++ pad2 m.number ++ " | " ++
    String.intercalate " - " (toNames m.month) ++ " " ++ toString m.year

/-- `CopierService.renameFiles`: ensure `<workingDirectory>/<prefixStr><title>`
exists, ensure the issue subfolder exists, then run the page copy loop.
Any error is returned to the caller (`monitor`). -/
def renameFiles (wd : String) (env : CopierEnv) (m : Magazine) :
    Except String (List String) :=
  let pubFolder := pathJoin wd (prefixStr ++ m.metadata.title)
  if env.statMissing pubFolder ∧ ¬ env.mkdirOk pubFolder then
    .error ("unable to create folder " ++ pubFolder)
  else
    let issueFolder := pathJoin pubFolder (issueFolderName m.metadata)
    if env.statMissing issueFolder ∧ ¬ env.mkdirOk issueFolder then
      .error ("unable to create folder " ++ issueFolder)
    else
      copyPages env issueFolder m.folder m.pages

/-- `CopierService.monitor`: pull magazines in order; on a `renameFiles`
error, return the error (the loop exits — no further magazine is read).
Returns the list of magazines consumed and the error, if any. -/
def copierMonitor (wd : String) (env : CopierEnv) :
    List Magazine → List Magazine × Option String
  | [] => ([], none)
  | m :: rest =>
      match renameFiles wd env m with
      | .error e => ([m], some e)
      | .ok _ =>
          let r := copierMonitor wd env rest
          (m :: r.1, r.2)

/-! ## Analyzer: cover metadata (`AnalyzerService.analyzePages`, src/unnamed/part_002) -/

/-- Environment of the cover analysis, keyed by the cover file path:
`statOk`/`openOk` model `os.Stat`/`os.Open`; `infer` models
`aiProxy.SendRequestWithImage` for the cover prompt; `decodeMetadata`
models `json.Unmarshal` into `entities.MagazineMetadata`. -/
structure AnalyzerEnv where
  statOk : String → Bool
  openOk : String → Bool
  infer : String → Except String String
  decodeMetadata : String → Option MagazineMetadata

/-- `AnalyzerService.analyzePages`: derive the cover metadata and emit at
most one `Magazine` (the single channel send at the end of the Go
function), alongside the audit events logged, in order. -/
def analyzePages (env : AnalyzerEnv) (mp : MagazinePages) :
    Option Magazine × List Audit :=
  match mp.pages with
  | [] => (none, [⟨.information, "No pages to analyze."⟩])
  | cover :: _ =>
      let coverPath := pathJoin mp.folder cover.file
      let analyzing : Audit := ⟨.information, "Analyzing cover file '" ++ cover.file ++ "'"⟩
      if ¬ env.statOk coverPath then
        (none, [analyzing,
          ⟨.error, "Cover file '" ++ coverPath ++ "' does not exist or is not accessible"⟩])
      else if ¬ env.openOk coverPath then
        (none, [analyzing,
          ⟨.error, "Cover file '" ++ coverPath ++ "' does not exist or is not accessible"⟩])
      else
        match env.infer coverPath with
        | .error _ =>
            (none, [analyzing,
              ⟨.error, "An error occurred trying to analyze the cover file '" ++ coverPath ++ "'"⟩])
        | .ok response =>
            if response = "" ∨ response = "Unknown" then
              (none, [analyzing,
                ⟨.error, "Unable to retieve the metadata of the cover file '" ++ coverPath ++ "'"⟩])
            else
              match env.decodeMetadata response with
              | none =>
                  (none, [analyzing,
                    ⟨.error, "Unable to decode the magazine metadata of cover file '" ++ coverPath ++ "'"⟩,
                    ⟨.debug, "Received: " ++ response⟩])
              | some metadata =>
                  (some ⟨metadata, mp.pages, mp.folder⟩,
                    [analyzing,
                     ⟨.information, "Analysis done: found publication title is '" ++
                       metadata.title ++ "' and its number is '" ++ toString metadata.number ++ "'"⟩])

/-- The magazines sent by `AnalyzerService.monitor` over a run: the loop
body calls `analyzePages` for every page set in order and never exits
early, so every emission of every page set is delivered. -/
def analyzerEmits (env : AnalyzerEnv) : List MagazinePages → List Magazine
  | [] => []
  | mp :: rest =>
      match (analyzePages env mp).1 with
      | some m => m :: analyzerEmits env rest
      | none => analyzerEmits env rest

/-! ## Analyzer: content-index loop (`AnalyzerService.analyzeTableOfContent`) -/

/-- Per-candidate-page outcome of the first loop of
`analyzeTableOfContent`, combining the file system (`os.Stat`/`os.Open`),
the inference call and `json.Unmarshal`:
* `statFail`, `openFail`, `inferFail` — the corresponding Go branch logs
  an error and does `return` (aborts the whole derivation);
* `empty` — `response == ""`: logs an error and does `return`;
* `malformed` — `json.Unmarshal` fails: logs and does `continue`;
* `decoded q` — `json.Unmarshal` succeeds, patching the fields present in
  the JSON into the accumulator variable `tableContent`. -/
inductive TocOutcome where
  | statFail
  | openFail
  | inferFail
  | empty
  | malformed
  | decoded (q : TableContentPatch)
  deriving DecidableEq, Repr, Inhabited

/-- `json.Unmarshal` of one response into the existing accumulator: a field
whose key is present is overwritten, a field whose key is absent keeps its
previous value. -/
def tocAccum (tc : TableContent) (q : TableContentPatch) : TableContent :=
  ⟨q.error.getD tc.error, q.entries.getD tc.entries⟩

/-- How the first loop of `analyzeTableOfContent` ended: `aborted` models
the early `return` branches, `found` the `break`, `exhausted` falling off
the loop; each carries the accumulator at that point. -/
inductive TocResult where
  | aborted (tc : TableContent)
  | found (tc : TableContent)
  | exhausted (tc : TableContent)
  deriving DecidableEq, Repr, Inhabited

/-- The first loop of `analyzeTableOfContent` over the candidate pages
(`magazinePages.Pages[1:]`), threading the single accumulator variable
`tableContent`; after a successful decode, Go continues when
`tableContent.Error != "" || len(tableContent.Entries) == 0` and breaks
otherwise. -/
def tocLoop (outcome : MagazinePage → TocOutcome) :
    List MagazinePage → TableContent → TocResult
  | [], tc => .exhausted tc
  | p :: rest, tc =>
      match outcome p with
      | .statFail => .aborted tc
      | .openFail => .aborted tc
      | .inferFail => .aborted tc
      | .empty => .aborted tc
      | .malformed => tocLoop outcome rest tc
      | .decoded q =>
          let tc2 := tocAccum tc q
          if tc2.error ≠ "" ∨ tc2.entries = [] then tocLoop outcome rest tc2
          else .found tc2

/-- Content-index derivation for one page set: the accumulator starts at
the Go zero value `{Error: "", Entries: nil}` and the loop runs over the
pages after the cover. -/
def tableOfContentSearch (outcome : MagazinePage → TocOutcome)
    (mp : MagazinePages) : TocResult :=
  tocLoop outcome mp.pages.tail ⟨"", []⟩

/-- A response decoded on its own (into a zero-valued struct), as the spec's
words "the page's decoded response" read it. -/
def standaloneDecode (q : TableContentPatch) : TableContent :=
  tocAccum ⟨"", []⟩ q

/-- The acceptance test of the loop, as a Boolean: empty error and
non-empty entries. -/
def usableTable (tc : TableContent) : Bool :=
  tc.error = "" && ! tc.entries.isEmpty

/-- The decoded patch of an outcome, if any. -/
def decodedPatch : TocOutcome → Option TableContentPatch
  | .decoded q => some q
  | _ => none

/-- Formalisation of the amended description of the loop: walk the
successfully decoded patches in order, merging each into the accumulator,
and stop at the first point where the accumulated table has an empty error
and non-empty entries; otherwise exhaust the list. -/
def tocPatchesAmended : List TableContentPatch → TableContent → TocResult
  | [], tc => .exhausted tc
  | q :: rest, tc =>
      let tc2 := tocAccum tc q
      if usableTable tc2 then .found tc2 else tocPatchesAmended rest tc2

/-! ## Analyzer: page resolution in the review loop -/

/-- `slices.IndexFunc(magazinePages.Pages, func(p) bool { return p.Number == pageNumber })`:
the index of the first matching page, `-1` when none matches. -/
def findPageIdx (pages : List MagazinePage) (n : Nat) : Int :=
  match pages.findIdx? (fun p => p.number == n) with
  | some i => (i : Int)
  | none => -1

/-- Result of resolving one referenced page number inside the review loop
of `analyzeTableOfContent`: `panic` models the Go runtime panic of an
out-of-range slice index; `sourceUnavailable` the logged error followed by
`return` when `os.Stat` fails. -/
inductive ResolveResult where
  | panic
  | sourceUnavailable (path : String)
  | resolved (path : String)
  deriving DecidableEq, Repr, Inhabited

/-- One resolution step of the review loop: Go computes
`idx := slices.IndexFunc(...)` and immediately reads
`magazinePages.Pages[idx].File` with no check of `idx`, so a page number
matching no page makes `idx = -1` and the slice access panics. -/
def resolvePageFile (statOk : String → Bool) (folder : String)
    (pages : List MagazinePage) (n : Nat) : ResolveResult :=
  let idx := findPageIdx pages n
  if idx < 0 then .panic
  else
    match pages[idx.toNat]? with
    | none => .panic
    | some p =>
        let path := pathJoin folder p.file
        if statOk path then .resolved path else .sourceUnavailable path

/-! ## Inference client (`internal/ai/ai_proxy.go`) -/

/-- The standard base64 alphabet (RFC 4648), as used by Go's
`base64.StdEncoding`. -/
def base64Alphabet : List Char :=
  "ABCDEFGHIJKLMNOPQRSTUVWXYZabcdefghijklmnopqrstuvwxyz0123456789+/".data

/-- The alphabet character of a 6-bit value. -/
def b64Char (n : Nat) : Char := base64Alphabet[n % 64]!

/-- Standard base64 (RFC 4648 `StdEncoding`) with `=` padding of the final
partial block — the encoding produced by a FLUSHED encoder, and what the
claim's words "the base64 encoding of the input bytes" describe.  Kept for
comparison with `base64Stream`, which is what the program computes. -/
def base64Padded : List Nat → String
  | b1 :: b2 :: b3 :: rest =>
      let n := (b1 % 256) * 65536 + (b2 % 256) * 256 + b3 % 256
      String.mk [b64Char (n / 262144), b64Char (n / 4096), b64Char (n / 64), b64Char n]
        ++ base64Padded rest
  | [b1, b2] =>
      let n := ((b1 % 256) * 256 + b2 % 256) * 4
      String.mk [b64Char (n / 4096), b64Char (n / 64), b64Char n] ++ "="
  | [b1] =>
      let n := (b1 % 256) * 16
      String.mk [b64Char (n / 64), b64Char n] ++ "=="
  | [] => ""

/-- Models the `base64.NewEncoder(base64.StdEncoding, ...)` of
`SendRequestWithImage` fed through `io.Copy` and never closed: each
complete 3-byte block is encoded as it streams, while a final block of 1
or 2 bytes stays in the encoder's internal buffer; since the code never
calls `Close` on the encoder, that buffer is never flushed, so trailing
bytes are dropped and no `=` padding is ever written. -/
def base64Stream : List Nat → String
  | b1 :: b2 :: b3 :: rest =>
      let n := (b1 % 256) * 65536 + (b2 % 256) * 256 + b3 % 256
      String.mk [b64Char (n / 262144), b64Char (n / 4096), b64Char (n / 64), b64Char n]
        ++ base64Stream rest
  | _ => ""

/-- The user message content built by `AiProxy.SendRequestWithImage`: one
text part and one image part. -/
structure ImageRequest where
  prompt : String
  imageURL : String
  deriving DecidableEq, Repr, Inhabited

/-- `AiProxy.SendRequestWithImage`: the image URL is the string builder
seeded with `"data:image/jpeg;base64,"` and then fed the output of the
unclosed streaming base64 encoder over the reader's bytes. -/
def sendRequestWithImage (prompt : String) (image : List Nat) : ImageRequest :=
  { prompt := prompt, imageURL := "data:image/jpeg;base64," ++ base64Stream image }

/-- Whether an `Except` result is a success. -/
def exceptOk {ε α : Type} : Except ε α → Bool
  | .ok _ => true
  | .error _ => false

/-- The destination path of one page, read off `renameFiles`:
`<workingDirectory>/<prefixStr><title>/<issueFolderName>/<pageDestName>`. -/
def destPath (wd : String) (m : Magazine) (p : MagazinePage) : String :=
  pathJoin (pathJoin (pathJoin wd (prefixStr ++ m.metadata.title))
    (issueFolderName m.metadata)) (pageDestName p)

/-- Modelled from the spec: the filesystem-layout sentence
`<outputRoot>/<title>/Numéro <NN> | <MonthName[ - MonthName...]> <YYYY>/<NNN>.<ext>`,
whose first component under the output root is exactly the publication
title.  To be compared with `destPath`, the path `renameFiles` builds. -/
def destPathSpec (wd : String) (m : Magazine) (p : MagazinePage) : String :=
  pathJoin (pathJoin (pathJoin wd m.metadata.title)
    (issueFolderName m.metadata)) (pageDestName p)

/-- Whether a candidate-page outcome takes one of the aborting branches of
the loop (stat, open or inference failure, or an empty response). -/
def abortingOutcome : TocOutcome → Bool
  | .statFail => true
  | .openFail => true
  | .inferFail => true
  | .empty => true
  | .malformed => false
  | .decoded _ => false

/-! ## Concrete data for counterexamples and witnesses -/

/-- A one-page magazine ("Tilt" issue 42, June 1991). -/
def copMagA : Magazine := ⟨⟨"Tilt", 42, [6], 1991⟩, [⟨"p1.JPG", 1⟩], "/in/A"⟩

/-- A second magazine, queued behind `copMagA`. -/
def copMagB : Magazine := ⟨⟨"Joystick", 7, [1, 12], 1992⟩, [⟨"x.png", 1⟩], "/in/B"⟩

/-- A copier filesystem where opening `copMagA`'s only page fails and
everything else succeeds. -/
def copEnvFail : CopierEnv :=
  ⟨fun _ => false, fun _ => true,
   fun src _ => if src = "/in/A/p1.JPG" then .openFail else .ok⟩

/-- A copier filesystem where every operation succeeds. -/
def copEnvOk : CopierEnv := ⟨fun _ => false, fun _ => true, fun _ _ => .ok⟩

/-- The cover metadata of the successful analyzer scenario. -/
def tiltMeta : MagazineMetadata := ⟨"Tilt", 42, [6], 1991⟩

/-- A two-page PageSet for the analyzer scenarios. -/
def anaPages : MagazinePages := ⟨"/in/A", [⟨"p1.JPG", 1⟩, ⟨"p2.jpg", 2⟩]⟩

/-- The magazine `analyzePages` emits from `anaPages` in the successful
scenario. -/
def tiltEmitted : Magazine := ⟨tiltMeta, anaPages.pages, anaPages.folder⟩

/-- Analyzer environment where everything succeeds and the cover response
decodes to `tiltMeta`. -/
def anaEnvOk : AnalyzerEnv :=
  ⟨fun _ => true, fun _ => true, fun _ => .ok "{cover}",
   fun r => if r = "{cover}" then some tiltMeta else none⟩

/-- Analyzer environment whose inference backend answers the literal
sentinel `"Unknown"` for every image. -/
def anaEnvUnknown : AnalyzerEnv :=
  ⟨fun _ => true, fun _ => true, fun _ => .ok "Unknown", fun _ => none⟩

/-- The content-index entry used in the accumulator-mixing scenario. -/
def tocEntryTests : TableContentEntry := ⟨"Tests", [4, 5]⟩

/-- Earlier page's decoded JSON: entries present, error non-empty. -/
def tocPatchEarly : TableContentPatch := ⟨some "page under construction", some [tocEntryTests]⟩

/-- Later page's decoded JSON: error key present and empty, entries key absent. -/
def tocPatchLate : TableContentPatch := ⟨some "", none⟩

/-- First candidate page of the accumulator-mixing scenario. -/
def tocPageEarly : MagazinePage := ⟨"002.jpg", 2⟩

/-- Second candidate page of the accumulator-mixing scenario. -/
def tocPageLate : MagazinePage := ⟨"003.jpg", 3⟩

/-- Outcome oracle of the accumulator-mixing scenario. -/
def tocOutcomeMix (p : MagazinePage) : TocOutcome :=
  if p.number = 2 then .decoded tocPatchEarly
  else if p.number = 3 then .decoded tocPatchLate
  else .empty

/-- Entry of the first candidate page in the stopping-rule scenario. -/
def tocEntrySel : TableContentEntry := ⟨"Sélections", [10]⟩

/-- First candidate's decoded JSON in the stopping-rule scenario: entries
present, error non-empty, so not usable on its own. -/
def tocPatchFirst : TableContentPatch := ⟨some "no summary found", some [tocEntrySel]⟩

/-- Second candidate's decoded JSON in the stopping-rule scenario: empty
error, entries key absent, so not usable on its own either. -/
def tocPatchSecond : TableContentPatch := ⟨some "", none⟩

/-- First candidate page of the stopping-rule scenario. -/
def tocPageA : MagazinePage := ⟨"004.jpg", 4⟩

/-- Second candidate page of the stopping-rule scenario. -/
def tocPageB : MagazinePage := ⟨"005.jpg", 5⟩

/-- Outcome oracle of the stopping-rule scenario. -/
def tocOutcomeCx (p : MagazinePage) : TocOutcome :=
  if p.number = 4 then .decoded tocPatchFirst
  else if p.number = 5 then .decoded tocPatchSecond
  else .malformed

/-- A candidate page whose response is malformed JSON. -/
def tocPageM : MagazinePage := ⟨"006.jpg", 6⟩

/-- A candidate page whose response is the empty string. -/
def tocPageE : MagazinePage := ⟨"007.jpg", 7⟩

/-- A candidate page, after the empty response, whose response would be a
usable content index if it were ever reached. -/
def tocPageX : MagazinePage := ⟨"008.jpg", 8⟩

/-- Outcome oracle of the empty-response scenario: malformed, then empty,
then a usable decode that the loop must never reach. -/
def tocOutcomeEmpty (p : MagazinePage) : TocOutcome :=
  if p.number = 6 then .malformed
  else if p.number = 7 then .empty
  else .decoded ⟨some "", some [tocEntryTests]⟩

/-! ## Claims -/

/-- C7: month-name resolution maps each in-range month number through the
fixed French calendar in input order; `{6}` yields "Juin", `{1, 12}`
joined with " - " yields "Janvier - Décembre", and out-of-range numbers
such as 0 or 13 are silently dropped, yielding an empty list rather than
an error. -/
theorem claim_C7_month_names :
    (∀ ns : List Nat, toNames ns =
        ns.filterMap (fun n =>
          if 1 ≤ n ∧ n ≤ 12 then some (frenchMonths[n - 1]!) else none)) ∧
    String.intercalate " - " (toNames [6]) = "Juin" ∧
    String.intercalate " - " (toNames [1, 12]) = "Janvier - Décembre" ∧
    toNames [0, 13] = [] := by
  refine ⟨?_, by decide, by decide, by decide⟩
  intro ns
  induction ns with
  | nil => rfl
  | cons n rest ih =>
      by_cases h : 1 ≤ n ∧ n ≤ 12
      · simp [toNames, List.filterMap_cons, h, ih]
      · simp [toNames, List.filterMap_cons, h, ih]

/-- The unclosed streaming encoder computes the padded standard base64 of
the longest multiple-of-3 prefix of its input: the trailing `length % 3`
bytes are dropped. -/
theorem base64Stream_eq_padded_take : ∀ bs : List Nat,
    base64Stream bs = base64Padded (bs.take (3 * (bs.length / 3)))
  | [] => rfl
  | [b] => by
      have h0 : 3 * (([b] : List Nat).length / 3) = 0 := by simp
      rw [h0]
      rfl
  | [b, c] => by
      have h0 : 3 * (([b, c] : List Nat).length / 3) = 0 := by simp
      rw [h0]
      rfl
  | b1 :: b2 :: b3 :: rest => by
      have ih := base64Stream_eq_padded_take rest
      have h3 : 3 * ((b1 :: b2 :: b3 :: rest).length / 3) =
          3 * (rest.length / 3) + 3 := by
        simp only [List.length_cons]
        omega
      have htake : (b1 :: b2 :: b3 :: rest).take (3 * (rest.length / 3) + 3) =
          b1 :: b2 :: b3 :: rest.take (3 * (rest.length / 3)) := rfl
      rw [h3, htake]
      simp only [base64Stream, base64Padded]
      rw [ih]

/-- C8 counterexample: for the 4-byte input `[137, 80, 78, 71]` (the PNG
magic number) the program's payload is `"data:image/jpeg;base64,iVBO"` —
the trailing byte 71 is dropped because the encoder is never closed —
whereas the base64 encoding of the input bytes that the claim prescribes
is `"iVBORw=="`. -/
theorem claim_C8_counterexample :
    sendRequestWithImage "p" [137, 80, 78, 71] =
      ⟨"p", "data:image/jpeg;base64,iVBO"⟩ ∧
    (sendRequestWithImage "p" [137, 80, 78, 71]).imageURL ≠
      "data:image/jpeg;base64," ++ base64Padded [137, 80, 78, 71] ∧
    base64Padded [137, 80, 78, 71] = "iVBORw==" := by
  decide

/-- C8 (amended): the image payload is the fixed string
`"data:image/jpeg;base64,"` — so the declared MIME type is JPEG regardless
of the actual source image format — followed by the standard base64
encoding of the longest multiple-of-3 prefix of the input bytes, with no
padding; the trailing 1–2 bytes of other inputs are silently dropped
because the base64 encoder is never closed. -/
theorem claim_C8_image_payload_truncated :
    (∀ prompt image, (sendRequestWithImage prompt image).imageURL =
        "data:image/jpeg;base64," ++ base64Stream image) ∧
    (∀ prompt image, ∃ rest, (sendRequestWithImage prompt image).imageURL =
        "data:image/jpeg;base64," ++ rest) ∧
    (∀ image : List Nat, base64Stream image =
        base64Padded (image.take (3 * (image.length / 3)))) ∧
    sendRequestWithImage "p" [137, 80, 78, 71, 13, 10] =
      ⟨"p", "data:image/jpeg;base64,iVBORw0K"⟩ := by
  refine ⟨fun _ _ => rfl, fun p i => ⟨base64Stream i, rfl⟩,
    base64Stream_eq_padded_take, by decide⟩

/-- C3: resolving a referenced page number that matches no page of the
PageSet does crash: `slices.IndexFunc` returns `-1` and the unchecked
slice access `Pages[idx]` panics, instead of the claimed
`SourceUnavailable` failure. -/
theorem claim_C3_unmatched_page_number_panics :
    resolvePageFile (fun _ => true) "/magazines/tilt-01"
      [⟨"001.jpg", 1⟩, ⟨"002.jpg", 2⟩] 9 = .panic := by
  decide

/-- C10: the content-index accumulator is shared across candidate pages:
with the earlier page decoding to non-empty entries but a non-empty error,
and the later page decoding to an empty error with the entries key absent,
the loop accepts a ContentIndex whose entries come from the earlier page
and whose error field comes from the later page. -/
theorem claim_C10_accumulator_mixes_pages :
    tocLoop tocOutcomeMix [tocPageEarly, tocPageLate] ⟨"", []⟩ =
      .found ⟨"", [tocEntryTests]⟩ ∧
    tocOutcomeMix tocPageEarly = .decoded tocPatchEarly ∧
    tocOutcomeMix tocPageLate = .decoded tocPatchLate ∧
    tocPatchEarly.entries = some [tocEntryTests] ∧
    tocPatchEarly.error ≠ some "" ∧
    tocPatchLate.entries = none ∧
    tocPatchLate.error = some "" := by
  decide

/-- The acceptance test spelled out: usable means empty error and non-empty
entries. -/
theorem usableTable_eq (tc : TableContent) :
    usableTable tc = true ↔ (tc.error = "" ∧ tc.entries ≠ []) := by
  cases htc : tc.entries <;> simp [usableTable, htc]

/-- A successful run of the page-copy loop produces exactly the destination
paths of the pages, in page order. -/
theorem copyPages_ok_map (env : CopierEnv) (dstDir srcFolder : String) :
    ∀ (pages : List MagazinePage) (l : List String),
      copyPages env dstDir srcFolder pages = .ok l →
      l = pages.map (fun p => pathJoin dstDir (pageDestName p)) := by
  intro pages
  induction pages with
  | nil =>
      intro l h
      simp [copyPages] at h
      simp [h.symm]
  | cons p rest ih =>
      intro l h
      cases hc : env.pageCopy (pathJoin srcFolder p.file) (pathJoin dstDir (pageDestName p)) with
      | openFail => simp [copyPages, hc] at h
      | createFail => simp [copyPages, hc] at h
      | copyFail => simp [copyPages, hc] at h
      | ok =>
          simp only [copyPages, hc] at h
          cases hrec : copyPages env dstDir srcFolder rest with
          | error e => rw [hrec] at h; simp [Except.map] at h
          | ok t =>
              rw [hrec] at h
              simp [Except.map] at h
              simp [h.symm, List.map_cons, ih t hrec]

/-- C1 (amended): a failure at open/create/copy is fatal to the
Publication's remaining pages — the page loop returns that error without
looking at the pages after the failing one — and it also stops the Copier:
`monitor` returns the error, so the Publications still in the channel are
never consumed. -/
theorem claim_C1_failure_stops_copier :
    ∀ (wd : String) (env : CopierEnv) (pre : List Magazine) (m : Magazine)
      (rest : List Magazine) (e : String) (dstDir srcFolder : String)
      (p : MagazinePage) (ps : List MagazinePage),
      (∀ x ∈ pre, exceptOk (renameFiles wd env x) = true) →
      renameFiles wd env m = .error e →
      env.pageCopy (pathJoin srcFolder p.file) (pathJoin dstDir (pageDestName p)) ≠ .ok →
      copierMonitor wd env (pre ++ m :: rest) = (pre ++ [m], some e) ∧
      copyPages env dstDir srcFolder (p :: ps) = copyPages env dstDir srcFolder [p] ∧
      exceptOk (copyPages env dstDir srcFolder [p]) = false := by
  intro wd env pre m rest e dstDir srcFolder p ps hpre hm hp
  refine ⟨?_, ?_, ?_⟩
  · clear hp
    induction pre with
    | nil => simp [copierMonitor, hm]
    | cons x xs ih =>
        have hx := hpre x (List.mem_cons_self x xs)
        have hxs : ∀ y ∈ xs, exceptOk (renameFiles wd env y) = true :=
          fun y hy => hpre y (List.mem_cons_of_mem x hy)
        cases hrx : renameFiles wd env x with
        | error ex => rw [hrx] at hx; simp [exceptOk] at hx
        | ok lx => simp [copierMonitor, hrx, ih hxs]
  · cases hc : env.pageCopy (pathJoin srcFolder p.file) (pathJoin dstDir (pageDestName p)) with
    | ok => exact absurd hc hp
    | openFail => simp [copyPages, hc]
    | createFail => simp [copyPages, hc]
    | copyFail => simp [copyPages, hc]
  · cases hc : env.pageCopy (pathJoin srcFolder p.file) (pathJoin dstDir (pageDestName p)) with
    | ok => exact absurd hc hp
    | openFail => simp [copyPages, hc, exceptOk]
    | createFail => simp [copyPages, hc, exceptOk]
    | copyFail => simp [copyPages, hc, exceptOk]

/-- C1 counterexample: with the first magazine's only page failing to open,
the Copier consumes the first magazine, returns the error and never
processes the second magazine — refuting "still goes on to consume and
process the next Publication". -/
theorem claim_C1_counterexample :
    copierMonitor "/out" copEnvFail [copMagA, copMagB] =
      ([copMagA], some "unable to open source file /in/A/p1.JPG") ∧
    copMagB ∉ (copierMonitor "/out" copEnvFail [copMagA, copMagB]).1 := by
  decide

/-- C1 witness: the amended theorem at the concrete two-magazine scenario. -/
theorem claim_C1_witness :
    copierMonitor "/out" copEnvFail [copMagA, copMagB] =
      ([copMagA], some "unable to open source file /in/A/p1.JPG") ∧
    copyPages copEnvFail "/dst" "/in/A" [⟨"p1.JPG", 1⟩, ⟨"p2.jpg", 2⟩] =
      copyPages copEnvFail "/dst" "/in/A" [⟨"p1.JPG", 1⟩] ∧
    exceptOk (copyPages copEnvFail "/dst" "/in/A" [⟨"p1.JPG", 1⟩]) = false :=
  claim_C1_failure_stops_copier "/out" copEnvFail [] copMagA [copMagB]
    "unable to open source file /in/A/p1.JPG" "/dst" "/in/A" ⟨"p1.JPG", 1⟩
    [⟨"p2.jpg", 2⟩] (by decide) rfl (by decide)

/-- C2 (amended): a successful `renameFiles` writes each page to
`<outputRoot>/test-<title>/Numéro <NN> | <MonthName[ - MonthName...]> <YYYY>/<NNN>.<ext>`:
the first path component under the output root is the constant prefix
`"test-"` followed by the title; `<NN>` and `<NNN>` are the zero-padded
publication and page numbers and `<ext>` the lower-cased source
extension. -/
theorem claim_C2_layout :
    ∀ (wd : String) (env : CopierEnv) (m : Magazine) (copied : List String),
      renameFiles wd env m = .ok copied →
      copied = m.pages.map (destPath wd m) := by
  intro wd env m copied h
  simp only [renameFiles] at h
  split at h
  · exact absurd h (by simp)
  · split at h
    · exact absurd h (by simp)
    · exact copyPages_ok_map env _ m.folder m.pages copied h

/-- C2 counterexample: the path actually produced for the "Tilt" magazine
starts with `test-Tilt`, not with the bare title `Tilt` that the claim's
layout `<outputRoot>/<title>/...` (here `destPathSpec`) prescribes. -/
theorem claim_C2_counterexample :
    renameFiles "/out" copEnvOk copMagA =
      .ok ["/out/test-Tilt/Numéro 42 | Juin 1991/001.jpg"] ∧
    destPath "/out" copMagA ⟨"p1.JPG", 1⟩ ≠ destPathSpec "/out" copMagA ⟨"p1.JPG", 1⟩ ∧
    destPathSpec "/out" copMagA ⟨"p1.JPG", 1⟩ =
      "/out/Tilt/Numéro 42 | Juin 1991/001.jpg" := by
  refine ⟨rfl, by decide, rfl⟩

/-- C2 witness: the amended theorem at the concrete "Tilt" magazine. -/
theorem claim_C2_witness :
    ["/out/test-Tilt/Numéro 42 | Juin 1991/001.jpg"] =
      copMagA.pages.map (destPath "/out" copMagA) :=
  claim_C2_layout "/out" copEnvOk copMagA
    ["/out/test-Tilt/Numéro 42 | Juin 1991/001.jpg"] rfl

/-- C4: when the cover inference response is the empty string or exactly
"Unknown", the Analyzer emits no Publication for that PageSet, records an
error audit event, and the failure is not fatal: page sets before and
after it are processed exactly as if it were absent. -/
theorem claim_C4_unknown_cover :
    ∀ (env : AnalyzerEnv) (folder : String) (cover : MagazinePage)
      (ps : List MagazinePage) (r : String) (pre post : List MagazinePages),
      env.statOk (pathJoin folder cover.file) = true →
      env.openOk (pathJoin folder cover.file) = true →
      env.infer (pathJoin folder cover.file) = .ok r →
      (r = "" ∨ r = "Unknown") →
      (analyzePages env ⟨folder, cover :: ps⟩).1 = none ∧
      (⟨.error, "Unable to retieve the metadata of the cover file '" ++
          pathJoin folder cover.file ++ "'"⟩ : Audit) ∈
        (analyzePages env ⟨folder, cover :: ps⟩).2 ∧
      analyzerEmits env (pre ++ ⟨folder, cover :: ps⟩ :: post) =
        analyzerEmits env pre ++ analyzerEmits env post := by
  intro env folder cover ps r pre post hstat hopen hinfer hr
  have hnone : analyzePages env ⟨folder, cover :: ps⟩ =
      (none, [⟨.information, "Analyzing cover file '" ++ cover.file ++ "'"⟩,
              ⟨.error, "Unable to retieve the metadata of the cover file '" ++
                pathJoin folder cover.file ++ "'"⟩]) := by
    rcases hr with hr | hr <;> subst hr <;>
      simp [analyzePages, hstat, hopen, hinfer]
  refine ⟨by rw [hnone], by rw [hnone]; simp, ?_⟩
  induction pre with
  | nil => simp [analyzerEmits, hnone]
  | cons x xs ih =>
      cases hm : (analyzePages env x).1 <;> simp [analyzerEmits, hm, ih]

/-- C4 witness: the theorem at a concrete PageSet whose cover response is
"Unknown", queued between two other page sets. -/
theorem claim_C4_witness :
    (analyzePages anaEnvUnknown anaPages).1 = none ∧
    (⟨.error, "Unable to retieve the metadata of the cover file '" ++
        pathJoin "/in/A" "p1.JPG" ++ "'"⟩ : Audit) ∈
      (analyzePages anaEnvUnknown anaPages).2 ∧
    analyzerEmits anaEnvUnknown
        ([⟨"/in/B", [⟨"q1.jpg", 1⟩]⟩] ++ anaPages :: [⟨"/in/C", [⟨"r1.jpg", 1⟩]⟩]) =
      analyzerEmits anaEnvUnknown [⟨"/in/B", [⟨"q1.jpg", 1⟩]⟩] ++
        analyzerEmits anaEnvUnknown [⟨"/in/C", [⟨"r1.jpg", 1⟩]⟩] :=
  claim_C4_unknown_cover anaEnvUnknown "/in/A" ⟨"p1.JPG", 1⟩ [⟨"p2.jpg", 2⟩]
    "Unknown" [⟨"/in/B", [⟨"q1.jpg", 1⟩]⟩] [⟨"/in/C", [⟨"r1.jpg", 1⟩]⟩]
    rfl rfl rfl (Or.inr rfl)

/-- C5: the Analyzer emits at most one Publication per PageSet — the
emission slot of `analyzePages` is a single `Option` — and an emitted
Publication carries the PageSet's page list unchanged (same list, same
order) and the PageSet's source folder. -/
theorem claim_C5_single_emission_preserves :
    ∀ (env : AnalyzerEnv) (mp : MagazinePages) (m : Magazine) (audits : List Audit),
      analyzePages env mp = (some m, audits) →
      m.pages = mp.pages ∧ m.folder = mp.folder := by
  intro env mp m audits h
  cases mp with
  | mk folder pages =>
      cases pages with
      | nil => simp [analyzePages] at h
      | cons cover ps =>
          simp only [analyzePages] at h
          split at h
          · simp at h
          · split at h
            · simp at h
            · split at h
              · simp at h
              · split at h
                · simp at h
                · split at h
                  · simp at h
                  · simp at h
                    obtain ⟨h1, -⟩ := h
                    rw [← h1]
                    exact ⟨rfl, rfl⟩

/-- C5 witness: the theorem at a concrete successful analysis. -/
theorem claim_C5_witness :
    tiltEmitted.pages = anaPages.pages ∧ tiltEmitted.folder = anaPages.folder :=
  claim_C5_single_emission_preserves anaEnvOk anaPages tiltEmitted
    [⟨.information, "Analyzing cover file 'p1.JPG'"⟩,
     ⟨.information,
       "Analysis done: found publication title is 'Tilt' and its number is '42'"⟩]
    (by decide)

/-- C6 (amended): when no candidate page aborts the loop, content-index
derivation walks the pages after the cover in order, skipping pages whose
JSON fails to decode, merging each successful decode into the single
accumulator, and stops at the first point where the accumulated
ContentIndex has an empty error and non-empty entries, or exhausts the
pages. -/
theorem claim_C6_merged_stop :
    ∀ (outcome : MagazinePage → TocOutcome) (pages : List MagazinePage)
      (tc : TableContent),
      (∀ p ∈ pages, abortingOutcome (outcome p) = false) →
      tocLoop outcome pages tc =
        tocPatchesAmended (pages.filterMap (fun p => decodedPatch (outcome p))) tc := by
  intro outcome pages
  induction pages with
  | nil => intro tc _; rfl
  | cons p rest ih =>
      intro tc hall
      have hp := hall p (List.mem_cons_self p rest)
      have hrest : ∀ q ∈ rest, abortingOutcome (outcome q) = false :=
        fun q hq => hall q (List.mem_cons_of_mem p hq)
      cases ho : outcome p with
      | statFail => rw [ho] at hp; simp [abortingOutcome] at hp
      | openFail => rw [ho] at hp; simp [abortingOutcome] at hp
      | inferFail => rw [ho] at hp; simp [abortingOutcome] at hp
      | empty => rw [ho] at hp; simp [abortingOutcome] at hp
      | malformed =>
          simp only [tocLoop, ho, List.filterMap_cons, decodedPatch]
          exact ih tc hrest
      | decoded q =>
          simp only [tocLoop, ho, List.filterMap_cons, decodedPatch,
            tocPatchesAmended]
          by_cases hc : (tocAccum tc q).error = "" ∧ (tocAccum tc q).entries ≠ []
          · have h1 : ¬((tocAccum tc q).error ≠ "" ∨ (tocAccum tc q).entries = []) := by
              push_neg
              exact ⟨hc.1, hc.2⟩
            have h2 : usableTable (tocAccum tc q) = true := (usableTable_eq _).2 hc
            rw [if_neg h1]
            simp [h2]
          · have h1 : (tocAccum tc q).error ≠ "" ∨ (tocAccum tc q).entries = [] := by
              by_contra hcon
              push_neg at hcon
              exact hc ⟨hcon.1, hcon.2⟩
            have h2 : usableTable (tocAccum tc q) = false := by
              cases husable : usableTable (tocAccum tc q)
              · rfl
              · exact absurd ((usableTable_eq _).1 husable) hc
            rw [if_pos h1]
            simp [h2]
            exact ih (tocAccum tc q) hrest

/-- C6 counterexample: neither candidate page's own decoded response is
usable (the first has a non-empty error, the second has no entries), so
the claimed stopping rule predicts exhaustion; the loop nonetheless stops,
accepting the merged accumulator. -/
theorem claim_C6_counterexample :
    tocLoop tocOutcomeCx [tocPageA, tocPageB] ⟨"", []⟩ =
      .found ⟨"", [tocEntrySel]⟩ ∧
    usableTable (standaloneDecode tocPatchFirst) = false ∧
    usableTable (standaloneDecode tocPatchSecond) = false := by
  decide

/-- C6 witness: the amended theorem at the concrete two-candidate
scenario. -/
theorem claim_C6_witness :
    tocLoop tocOutcomeCx [tocPageA, tocPageB] ⟨"", []⟩ =
      tocPatchesAmended
        ([tocPageA, tocPageB].filterMap (fun p => decodedPatch (tocOutcomeCx p)))
        ⟨"", []⟩ :=
  claim_C6_merged_stop tocOutcomeCx [tocPageA, tocPageB] ⟨"", []⟩ (by decide)

/-- C9: an empty inference response for a candidate page aborts the whole
content-index derivation — the loop's result is `.aborted` no matter what
the remaining candidates would have yielded — while a malformed JSON
response only skips that candidate page and continues with the rest. -/
theorem claim_C9_empty_aborts :
    ∀ (outcome : MagazinePage → TocOutcome) (pre : List MagazinePage)
      (p : MagazinePage) (rest : List MagazinePage) (tc : TableContent),
      (∀ x ∈ pre, outcome x = .malformed) →
      (outcome p = .empty →
        tocLoop outcome (pre ++ p :: rest) tc = .aborted tc) ∧
      (outcome p = .malformed →
        tocLoop outcome (pre ++ p :: rest) tc = tocLoop outcome rest tc) := by
  intro outcome pre p rest tc
  induction pre with
  | nil =>
      intro _
      constructor
      · intro he; simp [tocLoop, he]
      · intro hm; simp [tocLoop, hm]
  | cons x xs ih =>
      intro hall
      have hx := hall x (List.mem_cons_self x xs)
      have hxs : ∀ y ∈ xs, outcome y = .malformed :=
        fun y hy => hall y (List.mem_cons_of_mem x hy)
      have ih2 := ih hxs
      constructor
      · intro he
        simpa [tocLoop, hx] using ih2.1 he
      · intro hm
        simpa [tocLoop, hx] using ih2.2 hm

/-- C9 witness: malformed then empty then a would-be-usable candidate; the
loop aborts at the empty response without reaching the third page. -/
theorem claim_C9_witness :
    tocLoop tocOutcomeEmpty [tocPageM, tocPageE, tocPageX] ⟨"", []⟩ =
      .aborted ⟨"", []⟩ :=
  (claim_C9_empty_aborts tocOutcomeEmpty [tocPageM] tocPageE [tocPageX]
    ⟨"", []⟩ (by decide)).1 (by decide)

end Organizer
